import Mathlib

/-!
# Verification of the healthcare compliance pipeline

Shallow embedding of the aggregation/reporting pipeline implemented in
`app.py` (Streamlit dashboard) and `refresh_pipeline.py` (batch ETL).

Modelling conventions:
* Timestamps are integer seconds since the Unix epoch (1970-01-01, a
  Thursday); one day is 86400 seconds.  `pd.NaT` / `NaN` after coercion is
  `Option.none`.
* Numeric waiting minutes are rationals (`ℚ`); a missing / unparseable
  value is `none`.
* A pandas dataframe restricted to the mapped columns is a `List Record`.
* `groupby` over a column drops rows whose key is missing (pandas default
  `dropna=True`), and the mean of the boolean `is_compliant` column over a
  group is (number of `true` entries) / (group size): a row whose
  `waiting_minutes` is `NaN` compares `NaN <= target` to `False` in pandas,
  so it is a `false` entry of the boolean column, not a missing one.
-/

/-- One visit row after column mapping and type coercion
(`pd.to_datetime(..., errors="coerce")` / `pd.to_numeric(..., errors="coerce")`):
unparseable cells are `none`. -/
structure Record where
  visit_date : Option Int
  department : Option String
  doctor : Option String
  waiting_raw : Option ℚ
  start_time : Option Int
  seen_time : Option Int
  license_expiry : Option Int
deriving DecidableEq, Repr

/-- The two waiting-time modes of the sidebar radio button in `app.py`:
a direct numeric minutes column, or `seen − start` converted to minutes. -/
inductive WaitingMode
  | numericCol
  | timeDiff
deriving DecidableEq, Repr

/-- Derived column `df["waiting_minutes"]` (app.py lines 198–203): either the coerced
numeric column, or `(df[seen] - df[start]).dt.total_seconds() / 60.0`,
which is `NaN` (`none`) when either timestamp failed to parse. -/
def waiting_minutes : WaitingMode → Record → Option ℚ
  | .numericCol, r => r.waiting_raw
  | .timeDiff, r =>
      match r.seen_time, r.start_time with
      | some sn, some st => some (((sn - st : Int) : ℚ) / 60)
      | _, _ => none

/-- Derived column `df["is_compliant"] = df["waiting_minutes"] <= target_minutes`
(app.py line 205, refresh_pipeline.py line 31).  In pandas `NaN <= t`
evaluates to `False`, so a missing waiting time yields `false`, not a
missing boolean. -/
def is_compliant (mode : WaitingMode) (target : ℚ) (r : Record) : Bool :=
  match waiting_minutes mode r with
  | some w => decide (w ≤ target)
  | none => false

/-- Truncation `Series.dt.normalize()`: truncate a timestamp to midnight of its day
(floor division by the day length, as pandas floors). -/
def normalizeTs (t : Int) : Int := t.fdiv 86400 * 86400

/-- Weekday index `Series.dt.dayofweek`: Monday = 0 … Sunday = 6.  The epoch day
1970-01-01 is a Thursday (index 3). -/
def dayOfWeek (t : Int) : Int := (t.fdiv 86400 + 3) % 7

/-- Week-start derivation `infer_week_start` (app.py lines 66–68) and `_infer_week_start`
(refresh_pipeline.py lines 22–24):
`(d - pd.to_timedelta(d.dt.dayofweek, unit="d")).dt.normalize()`. -/
def inferWeekStart (t : Int) : Int := normalizeTs (t - dayOfWeek t * 86400)

/-- Row filter `df.dropna(subset=[visit_date_col])` (app.py line 208): keep only rows
whose visit date parsed. -/
def retained (rs : List Record) : List Record :=
  rs.filter fun r => r.visit_date.isSome

/-- Group key of `df.groupby("week_start")`: `NaT` visit dates give a
`NaT` week (dropped by groupby). -/
def weekKey (r : Record) : Option Int := r.visit_date.map inferWeekStart

/-- Group key of `df.groupby(department_col)`. -/
def deptKey (r : Record) : Option String := r.department

/-- Group key of `df.groupby(doctor_col)`. -/
def doctorKey (r : Record) : Option String := r.doctor

/-- The distinct non-missing key values, i.e. the index of a pandas
`groupby` result (pandas drops missing keys). -/
def groupKeys {κ : Type} [DecidableEq κ] (key : Record → Option κ)
    (rs : List Record) : List κ :=
  (rs.filterMap key).dedup

/-- The rows of one group: all records whose key equals `k`. -/
def groupOf {κ : Type} [DecidableEq κ] (key : Record → Option κ)
    (rs : List Record) (k : κ) : List Record :=
  rs.filter fun r => decide (key r = some k)

/-- Group mean `groupby(...)["is_compliant"].mean().mul(100)` applied to one group:
100 × (number of rows whose boolean `is_compliant` is true) / (group size). -/
def pctOf (mode : WaitingMode) (target : ℚ) (g : List Record) : ℚ :=
  100 * (g.countP (is_compliant mode target) : ℚ) / (g.length : ℚ)

/-- A whole `groupby(key)["is_compliant"].mean().mul(100)` table:
one `(key, compliance_pct)` row per distinct non-missing key. -/
def groupPct {κ : Type} [DecidableEq κ] (key : Record → Option κ)
    (mode : WaitingMode) (target : ℚ) (rs : List Record) : List (κ × ℚ) :=
  (groupKeys key rs).map fun k => (k, pctOf mode target (groupOf key rs k))

/-- Weekly compliance table of `app.py` (line 234): groups the
date-retained rows by `week_start`. -/
def appWeekly (mode : WaitingMode) (target : ℚ) (rs : List Record) :
    List (Int × ℚ) :=
  groupPct weekKey mode target (retained rs)

/-- Department compliance table of `app.py` (line 240). -/
def appDept (mode : WaitingMode) (target : ℚ) (rs : List Record) :
    List (String × ℚ) :=
  groupPct deptKey mode target (retained rs)

/-- KPI `total_visits = len(df)` (app.py line 212), taken after the
`dropna` on the visit date. -/
def totalVisits (rs : List Record) : Nat := (retained rs).length

/-- Sum of the per-department group sizes of the department aggregate. -/
def deptVisitCountSum (rs : List Record) : Nat :=
  ((groupKeys deptKey (retained rs)).map
    fun k => (groupOf deptKey (retained rs) k).length).sum

/-- Day difference `(doctor["License Expiry"] - today).dt.days`: a pandas `Timedelta.days`
floors towards negative infinity. -/
def daysToExpiry (today e : Int) : Int := (e - today).fdiv 86400

/-- Risk classifier `risk_label` (app.py lines 259–264): `NaN → "Unknown"`, negative →
expired, `≤ alert_days` → expiring soon, otherwise OK. -/
def risk_label (alert : Int) : Option Int → String
  | none => "Unknown"
  | some d =>
      if d < 0 then "⛔ Expired"
      else if d ≤ alert then "⚠️ Expiring Soon"
      else "OK"

/-- Latest expiry `df.groupby(doctor_col)[license_expiry_col].max()` over
the rows of one doctor: pandas `max` skips missing values and returns
`NaN` only when every value is missing. -/
def latestExpiry (g : List Record) : Option Int :=
  (g.filterMap fun r => r.license_expiry).max?

/-- One row of the doctor table of `app.py` lines 248–272:
`Doctor, Visits, Compliance %, License Expiry, Days to Expiry, Risk`. -/
structure DoctorRow where
  doctor : String
  visits : Nat
  pct : ℚ
  expiry : Option Int
  days : Option Int
  risk : String
deriving DecidableEq, Repr

/-- The doctor aggregate of `app.py` (lines 248–269), before the display
sort.  `hasLicense` is whether a license-expiry column was selected; in
the else branch (lines 266–269) the code sets `License Expiry = NaT`,
`Days to Expiry = NaN` and `Risk = "Unknown"` for every doctor. -/
def appDoctorTable (hasLicense : Bool) (today alert : Int)
    (mode : WaitingMode) (target : ℚ) (rs0 : List Record) : List DoctorRow :=
  let rs := retained rs0
  (groupKeys doctorKey rs).map fun dname =>
    let g := groupOf doctorKey rs dname
    let e : Option Int := if hasLicense then latestExpiry g else none
    let d : Option Int := e.map (daysToExpiry today)
    { doctor := dname
      visits := g.length
      pct := pctOf mode target g
      expiry := e
      days := d
      risk := if hasLicense then risk_label alert d else "Unknown" }

/-- The code points of a string, in order.  Python compares `str` values
lexicographically by code point, which is what `sort_values` uses on the
`Risk` column of strings. -/
def charCodes (s : String) : List Nat := s.data.map Char.toNat

/-- Lexicographic strict order on code-point sequences: the order Python
uses to compare two strings. -/
def ltLex : List Nat → List Nat → Bool
  | [], [] => false
  | [], _ :: _ => true
  | _ :: _, [] => false
  | a :: as, b :: bs => if a < b then true else if b < a then false else ltLex as bs

/-- Comparison `<` of Python on strings. -/
def strLt (a b : String) : Bool := ltLex (charCodes a) (charCodes b)

/-- The comparator realising
`sort_values(["Risk", "Compliance %"], ascending=[True, False])`
(app.py line 272): ascending lexicographic order on the `Risk` string,
compliance percentage descending within equal risk strings.  (Two strings
are equal iff their code-point sequences are.) -/
def doctorLE (x y : DoctorRow) : Bool :=
  if charCodes x.risk = charCodes y.risk then decide (y.pct ≤ x.pct)
  else ltLex (charCodes x.risk) (charCodes y.risk)

/-- Stable insertion of an element into a sorted list (auxiliary to
`sortBy`). -/
def insertBy {α : Type} (le : α → α → Bool) (a : α) : List α → List α
  | [] => [a]
  | b :: bs => if le a b then a :: b :: bs else b :: insertBy le a bs

/-- Stable sort by a boolean comparator, modelling the stable pandas
multi-column `sort_values`. -/
def sortBy {α : Type} (le : α → α → Bool) : List α → List α
  | [] => []
  | a :: as => insertBy le a (sortBy le as)

/-- The displayed doctor table (app.py line 272). -/
def sortDoctorTable (rows : List DoctorRow) : List DoctorRow :=
  sortBy doctorLE rows

/-- The projection `doctor[["Doctor", "License Expiry", "Risk"]]` passed to
`make_powerpoint` (app.py line 335). -/
structure SlideDocRow where
  doctor : String
  expiry : Option Int
  risk : String
deriving DecidableEq, Repr

/-- Projection `doctor[["Doctor", "License Expiry", "Risk"]]` (app.py line 335). -/
def slideInput (rows : List DoctorRow) : List SlideDocRow :=
  rows.map fun r => ⟨r.doctor, r.expiry, r.risk⟩

/-- Rendering of a possibly missing expiry timestamp in the slide text. -/
def renderExpiry : Option Int → String
  | none => "NaT"
  | some t => toString t

/-- The text lines of the fourth slide, "Doctor Licensing Risks"
(app.py lines 136–146): one line per row of the dataframe it receives,
or the fixed message when that dataframe is empty. -/
def riskSlideLines (doc_df : List SlideDocRow) : List String :=
  if doc_df.isEmpty then ["No licensing risks detected."]
  else doc_df.map fun r =>
    r.doctor ++ " — License Expires: " ++ renderExpiry r.expiry ++
      " — Status: " ++ r.risk

/-- Sub-table `risky_only` (app.py line 274): the doctors whose risk is
expired or expiring soon.  Computed for the expander but *not* what the
code passes to the slide builder. -/
def riskyOnly (rows : List DoctorRow) : List DoctorRow :=
  rows.filter fun r =>
    decide (r.risk = "⛔ Expired") || decide (r.risk = "⚠️ Expiring Soon")

/-- The weekly table of `refresh_pipeline.py` (line 35): no `dropna` is
performed there, but grouping by `week_start` drops rows whose week key is
missing. -/
def refreshWeekly (target : ℚ) (rs : List Record) : List (Int × ℚ) :=
  groupPct weekKey .numericCol target rs

/-- The department table of `refresh_pipeline.py` (line 40): grouped over
*all* rows — `refresh_pipeline.py` never drops rows with a missing visit
date. -/
def refreshDept (target : ℚ) (rs : List Record) : List (String × ℚ) :=
  groupPct deptKey .numericCol target rs

/-- The columns present in the `doctor` dataframe of
`refresh_pipeline.py` just before the final selection (lines 45–53): the
license columns exist only when the source has a `License Expiry` column. -/
def refreshDoctorCols (hasLicense : Bool) : List String :=
  if hasLicense then
    ["Doctor", "mean", "Visits", "Compliance %", "License Expiry", "Days to Expiry"]
  else
    ["Doctor", "mean", "Visits", "Compliance %"]

/-- Column selection `df[[c₁, …, cₙ]]`: selecting columns from a dataframe raises a
`KeyError` when any requested column is absent. -/
def selectColumns (want cols : List String) : Except String (List String) :=
  if want.all (fun c => cols.contains c) then Except.ok want
  else Except.error "KeyError"

/-- The final column selection of `refresh_pipeline.py` line 54:
`doctor[["Doctor","Visits","Compliance %","License Expiry","Days to Expiry"]]`. -/
def refreshDoctorCsvColumns (hasLicense : Bool) : Except String (List String) :=
  selectColumns ["Doctor", "Visits", "Compliance %", "License Expiry", "Days to Expiry"]
    (refreshDoctorCols hasLicense)

/-- Specification-side compliance percentage ("excludes rows where the
comparison itself cannot be evaluated"): numerator and denominator range
only over the rows of the group with a known waiting time.  Stated from
the words of the spec, to be compared with the `pctOf` of the code. -/
def pctOfSpec (mode : WaitingMode) (target : ℚ) (g : List Record) : ℚ :=
  let known := g.filter fun r => (waiting_minutes mode r).isSome
  100 * (known.countP (is_compliant mode target) : ℚ) / (known.length : ℚ)

/-- Specification-side group table built with `pctOfSpec` instead of the
the `pctOf` of the code, for comparison. -/
def groupPctSpec {κ : Type} [DecidableEq κ] (key : Record → Option κ)
    (mode : WaitingMode) (target : ℚ) (rs : List Record) : List (κ × ℚ) :=
  (groupKeys key rs).map fun k => (k, pctOfSpec mode target (groupOf key rs k))

/-- A doctor with risk `"OK"` and the lowest compliance percentage. -/
def rowOK : DoctorRow :=
  { doctor := "Dr A", visits := 1, pct := 0, expiry := some 34560000,
    days := some 400, risk := "OK" }

/-- A doctor with risk `"⛔ Expired"` and the highest compliance
percentage. -/
def rowExpired : DoctorRow :=
  { doctor := "Dr B", visits := 1, pct := 100, expiry := some 0,
    days := some (-5), risk := "⛔ Expired" }

/-- A fully parseable visit: date at the epoch, department `"A"`,
doctor `"Dr A"`, 10 waiting minutes. -/
def recKnown : Record :=
  { visit_date := some 0, department := some "A", doctor := some "Dr A",
    waiting_raw := some 10, start_time := none, seen_time := none,
    license_expiry := none }

/-- Same visit but with an unparseable waiting-minutes value (`NaN`). -/
def recMissingWait : Record :=
  { visit_date := some 0, department := some "A", doctor := some "Dr A",
    waiting_raw := none, start_time := none, seen_time := none,
    license_expiry := none }

/-- A visit with a missing department value. -/
def recNoDept : Record :=
  { visit_date := some 0, department := none, doctor := some "Dr A",
    waiting_raw := some 10, start_time := none, seen_time := none,
    license_expiry := none }

/-- A visit whose visit date failed to parse (`NaT`). -/
def recNoVisit : Record :=
  { visit_date := none, department := some "A", doctor := some "Dr A",
    waiting_raw := some 10, start_time := none, seen_time := none,
    license_expiry := none }

/-- A visit by a doctor whose license expires 400 days after the epoch:
risk `"OK"` for `alert_days = 30` and `today = 0`. -/
def recOKDoctor : Record :=
  { visit_date := some 0, department := some "A", doctor := some "Dr A",
    waiting_raw := some 10, start_time := none, seen_time := none,
    license_expiry := some 34560000 }

/-- A time-difference-mode visit seen *before* its arrival time:
`seen = 0 < start = 60`, so the derived waiting time is negative. -/
def recNegWait : Record :=
  { visit_date := some 0, department := some "A", doctor := some "Dr A",
    waiting_raw := none, start_time := some 60, seen_time := some 0,
    license_expiry := none }

/-- The doctor row the dashboard produces for `recKnown` when no
license-expiry column is selected. -/
def rowUnknown : DoctorRow :=
  { doctor := "Dr A", visits := 1,
    pct := pctOf .numericCol 30 (groupOf doctorKey (retained [recKnown]) "Dr A"),
    expiry := none, days := none, risk := "Unknown" }

/-! ## Generic list lemmas used by several claims -/

theorem length_filter_eq_countP {α : Type} (p : α → Bool) (l : List α) :
    (l.filter p).length = l.countP p := by
  induction l with
  | nil => rfl
  | cons a l ih =>
      rw [List.filter_cons, List.countP_cons]
      split
      · simp [ih]
      · simp [*]

theorem mem_insertBy {α : Type} (le : α → α → Bool) (a x : α) (l : List α) :
    x ∈ insertBy le a l ↔ x = a ∨ x ∈ l := by
  induction l with
  | nil => simp [insertBy]
  | cons b bs ih =>
      rw [insertBy]
      split
      · simp [or_comm, or_left_comm]
      · simp [ih, or_comm, or_left_comm]

theorem mem_sortBy {α : Type} (le : α → α → Bool) (x : α) (l : List α) :
    x ∈ sortBy le l ↔ x ∈ l := by
  induction l with
  | nil => simp [sortBy]
  | cons a as ih => rw [sortBy, mem_insertBy, ih]; simp

/-- Floor division `Int.fdiv` by the (positive) day length agrees with `Int.ediv`,
letting `omega` reason about the week-start arithmetic. -/
theorem fdiv_day (a : Int) : a.fdiv 86400 = a / 86400 :=
  Int.fdiv_eq_ediv a (by norm_num)

/-- C6: For every retained record, the derived week start is the Monday
(day-of-week 0) at or before the visit date, strictly less than 7 days
before it, with the time of day zeroed out. -/
theorem weekStart_is_monday_of_visit_week (rs : List Record) (r : Record)
    (_hr : r ∈ retained rs) (d : Int) (hd : r.visit_date = some d) :
    weekKey r = some (inferWeekStart d) ∧
    dayOfWeek (inferWeekStart d) = 0 ∧
    inferWeekStart d ≤ d ∧
    d - inferWeekStart d < 7 * 86400 ∧
    inferWeekStart d % 86400 = 0 := by
  refine ⟨by simp [weekKey, hd], ?_, ?_, ?_, ?_⟩ <;>
    simp only [inferWeekStart, normalizeTs, dayOfWeek, fdiv_day] <;> omega

/-- Witness for C6 at a concrete retained record: visit date 2024-01-02
(Tuesday) is 1704153600 s; its week starts on Monday 2024-01-01. -/
theorem weekStart_is_monday_of_visit_week_witness :
    weekKey { visit_date := some 1704153600, department := none,
              doctor := none, waiting_raw := none, start_time := none,
              seen_time := none, license_expiry := none } =
      some (inferWeekStart 1704153600) ∧
    dayOfWeek (inferWeekStart 1704153600) = 0 ∧
    inferWeekStart 1704153600 ≤ 1704153600 ∧
    1704153600 - inferWeekStart 1704153600 < 7 * 86400 ∧
    inferWeekStart 1704153600 % 86400 = 0 :=
  weekStart_is_monday_of_visit_week
    [{ visit_date := some 1704153600, department := none, doctor := none,
       waiting_raw := none, start_time := none, seen_time := none,
       license_expiry := none }] _ (by decide) 1704153600 rfl

/-- C7: the four-branch doctor risk rule of `risk_label`, together with the
worked example of the spec (`license_expiry = today + 5 days` is Expiring Soon
for `alert_days = 30` and OK for `alert_days = 3`). -/
theorem risk_label_four_branch_rule (alert : Int) (d : Option Int) :
    (d = none → risk_label alert d = "Unknown") ∧
    (∀ n, d = some n → n < 0 → risk_label alert d = "⛔ Expired") ∧
    (∀ n, d = some n → 0 ≤ n → n ≤ alert → risk_label alert d = "⚠️ Expiring Soon") ∧
    (∀ n, d = some n → 0 ≤ alert → alert < n → risk_label alert d = "OK") ∧
    (∀ today : Int,
      risk_label 30 (some (daysToExpiry today (today + 5 * 86400))) = "⚠️ Expiring Soon") ∧
    (∀ today : Int,
      risk_label 3 (some (daysToExpiry today (today + 5 * 86400))) = "OK") := by
  have hfive : ∀ today : Int, daysToExpiry today (today + 5 * 86400) = 5 := by
    intro today
    simp only [daysToExpiry, fdiv_day]
    omega
  refine ⟨fun h => by rw [h]; rfl, ?_, ?_, ?_, ?_, ?_⟩
  · intro n hn h
    rw [hn]; simp only [risk_label]
    rw [if_pos h]
  · intro n hn h0 ha
    rw [hn]; simp only [risk_label]
    rw [if_neg (by omega), if_pos ha]
  · intro n hn ha hn2
    rw [hn]; simp only [risk_label]
    rw [if_neg (by omega), if_neg (by omega)]
  · intro today
    rw [hfive today]; simp only [risk_label]
    rw [if_neg (by omega), if_pos (by omega)]
  · intro today
    rw [hfive today]; simp only [risk_label]
    rw [if_neg (by omega), if_neg (by omega)]

/-- Witness for C7: alert window 30 days, 5 days to expiry is
Expiring Soon; expired and OK branches at concrete inputs. -/
theorem risk_label_four_branch_rule_witness :
    risk_label 30 (some 5) = "⚠️ Expiring Soon" ∧
    risk_label 30 (some (-1)) = "⛔ Expired" ∧
    risk_label 3 (some 5) = "OK" ∧
    risk_label 30 none = "Unknown" :=
  ⟨(risk_label_four_branch_rule 30 (some 5)).2.2.1 5 rfl (by norm_num) (by norm_num),
   (risk_label_four_branch_rule 30 (some (-1))).2.1 (-1) rfl (by norm_num),
   (risk_label_four_branch_rule 3 (some 5)).2.2.2.1 5 rfl (by norm_num) (by norm_num),
   (risk_label_four_branch_rule 30 none).1 rfl⟩

/-- C9: the doctor table built with two different `alert_days` values has
identical rows — same doctors, in the same order, with the same visit
counts, compliance percentages, license expiries and `Days to Expiry` —
apart from the `Risk` column, which is the only field computed from
`alert_days`. -/
theorem alertDays_only_affects_risk (hasLicense : Bool) (today a1 a2 : Int)
    (mode : WaitingMode) (target : ℚ) (rs : List Record) :
    ((appDoctorTable hasLicense today a1 mode target rs).map
        fun r => (r.doctor, r.visits, r.pct, r.expiry, r.days)) =
      ((appDoctorTable hasLicense today a2 mode target rs).map
        fun r => (r.doctor, r.visits, r.pct, r.expiry, r.days)) := by
  simp only [appDoctorTable, List.map_map]
  rfl

/-! ## Sortedness of insertion sort (used for the doctor-table ordering) -/

theorem pairwise_insertBy {α : Type} (le : α → α → Bool)
    (total : ∀ a b, le a b = true ∨ le b a = true)
    (trans : ∀ a b c, le a b = true → le b c = true → le a c = true)
    (a : α) (l : List α) (hl : l.Pairwise fun x y => le x y = true) :
    (insertBy le a l).Pairwise fun x y => le x y = true := by
  induction l with
  | nil => simp [insertBy]
  | cons b bs ih =>
      rw [List.pairwise_cons] at hl
      obtain ⟨hb, hbs⟩ := hl
      rw [insertBy]
      split
      · rename_i hab
        rw [List.pairwise_cons]
        refine ⟨?_, List.pairwise_cons.mpr ⟨hb, hbs⟩⟩
        intro x hx
        rcases List.mem_cons.mp hx with rfl | hx
        · exact hab
        · exact trans a b x hab (hb x hx)
      · rename_i hab
        rw [List.pairwise_cons]
        refine ⟨?_, ih hbs⟩
        intro x hx
        rw [mem_insertBy] at hx
        rcases hx with rfl | hx
        · rcases total x b with h | h
          · exact absurd h hab
          · exact h
        · exact hb x hx

theorem pairwise_sortBy {α : Type} (le : α → α → Bool)
    (total : ∀ a b, le a b = true ∨ le b a = true)
    (trans : ∀ a b c, le a b = true → le b c = true → le a c = true)
    (l : List α) : (sortBy le l).Pairwise fun x y => le x y = true := by
  induction l with
  | nil => exact List.Pairwise.nil
  | cons a as ih => exact pairwise_insertBy le total trans a _ ih

theorem ltLex_irrefl (l : List Nat) : ltLex l l = false := by
  induction l with
  | nil => rfl
  | cons a as ih => simp [ltLex, ih]

theorem ltLex_trans (a : List Nat) :
    ∀ b c, ltLex a b = true → ltLex b c = true → ltLex a c = true := by
  induction a with
  | nil =>
      intro b c hab hbc
      cases b with
      | nil => simp [ltLex] at hab
      | cons y ys =>
          cases c with
          | nil => simp [ltLex] at hbc
          | cons z zs => simp [ltLex]
  | cons x xs ih =>
      intro b c hab hbc
      cases b with
      | nil => simp [ltLex] at hab
      | cons y ys =>
          cases c with
          | nil => simp [ltLex] at hbc
          | cons z zs =>
              simp only [ltLex] at hab hbc ⊢
              rcases Nat.lt_trichotomy x y with h1 | h1 | h1
              · rcases Nat.lt_trichotomy y z with h2 | h2 | h2
                · rw [if_pos (h1.trans h2)]
                · subst h2; rw [if_pos h1]
                · rw [if_neg (by omega), if_pos h2] at hbc
                  exact absurd hbc (by simp)
              · subst h1
                rw [if_neg (by omega), if_neg (by omega)] at hab
                rcases Nat.lt_trichotomy x z with h2 | h2 | h2
                · rw [if_pos h2]
                · subst h2
                  rw [if_neg (by omega), if_neg (by omega)] at hbc
                  rw [if_neg (by omega), if_neg (by omega)]
                  exact ih ys zs hab hbc
                · rw [if_neg (by omega), if_pos h2] at hbc
                  exact absurd hbc (by simp)
              · rw [if_neg (by omega), if_pos h1] at hab
                exact absurd hab (by simp)

theorem ltLex_total_of_ne (a : List Nat) :
    ∀ b, a ≠ b → ltLex a b = true ∨ ltLex b a = true := by
  induction a with
  | nil =>
      intro b hne
      cases b with
      | nil => exact absurd rfl hne
      | cons y ys => left; simp [ltLex]
  | cons x xs ih =>
      intro b hne
      cases b with
      | nil => right; simp [ltLex]
      | cons y ys =>
          rcases Nat.lt_trichotomy x y with h1 | h1 | h1
          · left; simp only [ltLex]; rw [if_pos h1]
          · subst h1
            have hne' : xs ≠ ys := fun h => hne (by rw [h])
            rcases ih ys hne' with h | h
            · left; simp only [ltLex]
              rw [if_neg (by omega), if_neg (by omega)]; exact h
            · right; simp only [ltLex]
              rw [if_neg (by omega), if_neg (by omega)]; exact h
          · right; simp only [ltLex]; rw [if_pos h1]

theorem doctorLE_total (x y : DoctorRow) :
    doctorLE x y = true ∨ doctorLE y x = true := by
  by_cases h : charCodes x.risk = charCodes y.risk
  · simp only [doctorLE, if_pos h, if_pos h.symm, decide_eq_true_eq]
    exact (le_total y.pct x.pct).imp id id
  · simp only [doctorLE, if_neg h, if_neg (Ne.symm h)]
    exact ltLex_total_of_ne _ _ h

theorem doctorLE_trans (x y z : DoctorRow) :
    doctorLE x y = true → doctorLE y z = true → doctorLE x z = true := by
  intro hxy hyz
  by_cases h1 : charCodes x.risk = charCodes y.risk <;>
    by_cases h2 : charCodes y.risk = charCodes z.risk
  · rw [doctorLE, if_pos h1, decide_eq_true_eq] at hxy
    rw [doctorLE, if_pos h2, decide_eq_true_eq] at hyz
    rw [doctorLE, if_pos (h1.trans h2), decide_eq_true_eq]
    exact hyz.trans hxy
  · rw [doctorLE, if_neg h2] at hyz
    rw [doctorLE, if_neg (fun h => h2 (h1.symm.trans h)), h1]
    exact hyz
  · rw [doctorLE, if_neg h1] at hxy
    rw [doctorLE, if_neg (fun h => h1 (h.trans h2.symm)), ← h2]
    exact hxy
  · rw [doctorLE, if_neg h1] at hxy
    rw [doctorLE, if_neg h2] at hyz
    have hlt := ltLex_trans _ _ _ hxy hyz
    have hne : charCodes x.risk ≠ charCodes z.risk := by
      intro h
      rw [h] at hlt
      simp [ltLex_irrefl] at hlt
    rw [doctorLE, if_neg hne]
    exact hlt

/-- C3 amended: the displayed doctor table is sorted primarily by the
*string* value of the `Risk` column in ascending lexicographic
(code-point) order — an order under which `"OK"` comes before
`"Unknown"`, `"⚠️ Expiring Soon"` and `"⛔ Expired"` — and secondarily by
compliance percentage descending within equal risk strings. -/
theorem doctorTable_sorted_lexicographically (rows : List DoctorRow) :
    (sortDoctorTable rows).Pairwise
      (fun x y =>
        (charCodes x.risk = charCodes y.risk ∧ y.pct ≤ x.pct) ∨
        (charCodes x.risk ≠ charCodes y.risk ∧
          ltLex (charCodes x.risk) (charCodes y.risk) = true)) ∧
    strLt "OK" "Unknown" = true ∧
    strLt "OK" "⚠️ Expiring Soon" = true ∧
    strLt "OK" "⛔ Expired" = true ∧
    strLt "Unknown" "⚠️ Expiring Soon" = true ∧
    strLt "⚠️ Expiring Soon" "⛔ Expired" = true := by
  refine ⟨?_, by decide, by decide, by decide, by decide, by decide⟩
  have hp := pairwise_sortBy doctorLE doctorLE_total doctorLE_trans rows
  refine hp.imp ?_
  intro x y hxy
  rw [doctorLE] at hxy
  by_cases h : charCodes x.risk = charCodes y.risk
  · rw [if_pos h, decide_eq_true_eq] at hxy
    exact Or.inl ⟨h, hxy⟩
  · rw [if_neg h] at hxy
    exact Or.inr ⟨h, hxy⟩

/-- Counterexample to C3 as stated: the sort in the code places the `"OK"`
doctor *before* the `"⛔ Expired"` doctor (plain lexicographic string
order, `"OK" < "⛔ Expired"` by code point), whereas the claimed fixed
enum ordering — Unknown/Expired/Expiring Soon before OK — would list the
expired doctor first. -/
theorem doctorTable_sort_puts_OK_first :
    sortDoctorTable [rowExpired, rowOK] = [rowOK, rowExpired] ∧
    rowOK.risk = "OK" ∧ rowExpired.risk = "⛔ Expired" := by
  refine ⟨?_, rfl, rfl⟩
  rfl

/-! ## Counting records across groups (C8) -/

theorem countP_key_eq_count_filterMap {κ : Type} [DecidableEq κ]
    (key : Record → Option κ) (rs : List Record) (k : κ) :
    (rs.countP fun r => decide (key r = some k)) = (rs.filterMap key).count k := by
  induction rs with
  | nil => rfl
  | cons r rs ih =>
      rw [List.countP_cons, List.filterMap_cons]
      cases h : key r with
      | none => simp [h, ih]
      | some j =>
          rw [List.count_cons]
          by_cases hj : j = k
          · subst hj; simp [h, ih]
          · simp [h, hj, ih]

theorem length_filterMap_key {κ : Type} (key : Record → Option κ)
    (rs : List Record) :
    (rs.filterMap key).length = rs.countP fun r => (key r).isSome := by
  induction rs with
  | nil => rfl
  | cons r rs ih =>
      rw [List.filterMap_cons, List.countP_cons]
      cases h : key r with
      | none => simp [h, ih]
      | some j => simp [h, ih]

/-- Every record with a non-missing key lands in exactly one group: the
group sizes of a `groupby` sum to the number of rows whose key parsed. -/
theorem sum_group_lengths {κ : Type} [DecidableEq κ]
    (key : Record → Option κ) (rs : List Record) :
    ((groupKeys key rs).map fun k => (groupOf key rs k).length).sum =
      rs.countP fun r => (key r).isSome := by
  have h1 : ∀ k, (groupOf key rs k).length = (rs.filterMap key).count k := by
    intro k
    rw [groupOf, length_filter_eq_countP, countP_key_eq_count_filterMap]
  calc ((groupKeys key rs).map fun k => (groupOf key rs k).length).sum
      = ((rs.filterMap key).dedup.map fun k => (rs.filterMap key).count k).sum := by
        rw [groupKeys]; simp only [h1]
    _ = (rs.filterMap key).length := List.sum_map_count_dedup_eq_length _
    _ = rs.countP fun r => (key r).isSome := length_filterMap_key key rs

/-- C8 amended: whenever every retained record has a department value, the
department group sizes sum to the reported total visit count.  (Without
that hypothesis a retained record with a missing department is counted in
`total_visits` but belongs to no department group.) -/
theorem deptCounts_sum_eq_totalVisits (rs : List Record)
    (h : ∀ r ∈ retained rs, (deptKey r).isSome) :
    deptVisitCountSum rs = totalVisits rs := by
  rw [deptVisitCountSum, sum_group_lengths, totalVisits]
  exact List.countP_eq_length.mpr h

/-- Witness for C8 (amended) on a concrete two-row dataset whose
departments are all present. -/
theorem deptCounts_sum_eq_totalVisits_witness :
    (∀ r ∈ retained [recKnown, recMissingWait], (deptKey r).isSome) ∧
    deptVisitCountSum [recKnown, recMissingWait] =
      totalVisits [recKnown, recMissingWait] :=
  ⟨by decide, deptCounts_sum_eq_totalVisits [recKnown, recMissingWait] (by decide)⟩

/-- Counterexample to C8 as stated: a retained record with a missing
department is counted in `total_visits` (`len(df)` after the date
`dropna`) but in no row of the department aggregate, so the sums differ. -/
theorem deptCounts_sum_misses_nullDept :
    totalVisits [recNoDept] = 1 ∧ deptVisitCountSum [recNoDept] = 0 := by
  constructor <;> rfl

/-- A record whose boolean `is_compliant` is true necessarily has a known
waiting time (`NaN <= target` is `False` in pandas). -/
theorem is_compliant_and_known (mode : WaitingMode) (target : ℚ) (r : Record) :
    (is_compliant mode target r && (waiting_minutes mode r).isSome) =
      is_compliant mode target r := by
  rw [is_compliant]
  cases h : waiting_minutes mode r <;> simp [h]

/-- C1 amended: in every group-compliance table the percentage is
100 × (number of records with known `waiting_minutes ≤ target`) divided by
the number of *all* records in the group: a record with missing
`waiting_minutes` never reaches the numerator but *is* counted in the
denominator (as non-compliant), rather than being excluded from both. -/
theorem compliance_pct_missing_in_denominator {κ : Type} [DecidableEq κ]
    (key : Record → Option κ) (mode : WaitingMode) (target : ℚ)
    (rs : List Record) (k : κ) (p : ℚ)
    (hmem : (k, p) ∈ groupPct key mode target rs) :
    p = 100 * (((groupOf key rs k).filter fun r =>
          (waiting_minutes mode r).isSome).countP (is_compliant mode target) : ℚ) /
        ((groupOf key rs k).length : ℚ) := by
  rw [groupPct] at hmem
  obtain ⟨k', _, heq⟩ := List.mem_map.mp hmem
  rw [Prod.ext_iff] at heq
  obtain ⟨hk, hp⟩ := heq
  cases hk
  cases hp
  simp only [pctOf, List.countP_filter, is_compliant_and_known]
  rfl

/-- The compliance percentage of the concrete group `[recKnown,
recMissingWait]` as the code computes it: 1 compliant row out of 2. -/
theorem pctOf_concrete_group :
    pctOf .numericCol 30 (groupOf deptKey [recKnown, recMissingWait] "A") = 50 := by
  have hc : (groupOf deptKey [recKnown, recMissingWait] "A").countP
      (is_compliant .numericCol 30) = 1 := by decide
  have hl : (groupOf deptKey [recKnown, recMissingWait] "A").length = 2 := by decide
  rw [pctOf, hc, hl]
  norm_num

/-- The same group under the exclusion rule of the specification: the missing
row is dropped from the denominator as well, giving 100%. -/
theorem pctOfSpec_concrete_group :
    pctOfSpec .numericCol 30 (groupOf deptKey [recKnown, recMissingWait] "A") = 100 := by
  have hc : ((groupOf deptKey [recKnown, recMissingWait] "A").filter fun r =>
      (waiting_minutes .numericCol r).isSome).countP (is_compliant .numericCol 30) = 1 := by
    decide
  have hl : ((groupOf deptKey [recKnown, recMissingWait] "A").filter fun r =>
      (waiting_minutes .numericCol r).isSome).length = 1 := by decide
  rw [pctOfSpec]
  rw [hc, hl]
  norm_num

/-- Witness for C1 (amended): a department group with one compliant visit
and one missing-waiting visit reports 50%, i.e. the missing row inflates
the denominator. -/
theorem compliance_pct_missing_in_denominator_witness :
    (("A", (50 : ℚ)) ∈ groupPct deptKey .numericCol 30 [recKnown, recMissingWait]) ∧
    (50 : ℚ) = 100 * (((groupOf deptKey [recKnown, recMissingWait] "A").filter fun r =>
          (waiting_minutes .numericCol r).isSome).countP (is_compliant .numericCol 30) : ℚ) /
        ((groupOf deptKey [recKnown, recMissingWait] "A").length : ℚ) := by
  have hkeys : groupKeys deptKey [recKnown, recMissingWait] = ["A"] := by decide
  have hmem : (("A", (50 : ℚ)) ∈ groupPct deptKey .numericCol 30 [recKnown, recMissingWait]) := by
    rw [groupPct, hkeys]
    simp [pctOf_concrete_group]
  exact ⟨hmem, compliance_pct_missing_in_denominator deptKey .numericCol 30
    [recKnown, recMissingWait] "A" 50 hmem⟩

/-- Counterexample to C1 as stated: on a group with one compliant visit
(waiting 10 ≤ target 30) and one missing-waiting visit, the code reports
50% whereas the formula of the claim (exclude missing rows from numerator *and*
denominator) gives 100%. -/
theorem compliance_pct_not_spec_exclusion :
    groupPct deptKey .numericCol 30 [recKnown, recMissingWait] = [("A", 50)] ∧
    groupPctSpec deptKey .numericCol 30 [recKnown, recMissingWait] = [("A", 100)] ∧
    (50 : ℚ) ≠ 100 := by
  have hkeys : groupKeys deptKey [recKnown, recMissingWait] = ["A"] := by decide
  refine ⟨?_, ?_, by norm_num⟩
  · rw [groupPct, hkeys]
    simp [pctOf_concrete_group]
  · rw [groupPctSpec, hkeys]
    simp [pctOfSpec_concrete_group]

/-- A record with a missing group key belongs to no group of a `groupby`
table (pandas drops missing keys). -/
theorem groupPct_cons_none {κ : Type} [DecidableEq κ]
    (key : Record → Option κ) (mode : WaitingMode) (target : ℚ)
    (r : Record) (rs : List Record) (h : key r = none) :
    groupPct key mode target (r :: rs) = groupPct key mode target rs := by
  have h1 : groupKeys key (r :: rs) = groupKeys key rs := by
    rw [groupKeys, groupKeys, List.filterMap_cons, h]
  have h2 : ∀ k, groupOf key (r :: rs) k = groupOf key rs k := by
    intro k
    rw [groupOf, groupOf, List.filter_cons]
    simp [h]
  rw [groupPct, groupPct, h1]
  simp only [h2]

/-- C4 amended: a record with a missing visit date contributes to none of
the dashboard aggregates (weekly, department, doctor) nor to its total
visit count, and to none of the *weekly* aggregate of the batch pipeline;
the department and doctor aggregates of the batch pipeline, built without any
`dropna`, do still count it (see the counterexample). -/
theorem missing_visit_date_dropped (r : Record) (hr : r.visit_date = none)
    (rs : List Record) (hasLicense : Bool) (today alert : Int)
    (mode : WaitingMode) (target : ℚ) :
    appWeekly mode target (r :: rs) = appWeekly mode target rs ∧
    appDept mode target (r :: rs) = appDept mode target rs ∧
    appDoctorTable hasLicense today alert mode target (r :: rs) =
      appDoctorTable hasLicense today alert mode target rs ∧
    totalVisits (r :: rs) = totalVisits rs ∧
    refreshWeekly target (r :: rs) = refreshWeekly target rs := by
  have hret : retained (r :: rs) = retained rs := by
    rw [retained, retained, List.filter_cons]
    simp [hr]
  have hwk : weekKey r = none := by rw [weekKey, hr]; rfl
  exact ⟨by rw [appWeekly, appWeekly, hret],
    by rw [appDept, appDept, hret],
    by rw [appDoctorTable, appDoctorTable, hret],
    by rw [totalVisits, totalVisits, hret],
    groupPct_cons_none weekKey .numericCol target r rs hwk⟩

/-- Witness for C4 (amended) at a concrete dataset: prepending a record
with an unparseable visit date changes none of the dashboard aggregates. -/
theorem missing_visit_date_dropped_witness :
    recNoVisit.visit_date = none ∧
    appWeekly .numericCol 30 [recNoVisit, recKnown] = appWeekly .numericCol 30 [recKnown] ∧
    appDept .numericCol 30 [recNoVisit, recKnown] = appDept .numericCol 30 [recKnown] ∧
    appDoctorTable true 0 30 .numericCol 30 [recNoVisit, recKnown] =
      appDoctorTable true 0 30 .numericCol 30 [recKnown] ∧
    totalVisits [recNoVisit, recKnown] = totalVisits [recKnown] ∧
    refreshWeekly 30 [recNoVisit, recKnown] = refreshWeekly 30 [recKnown] := by
  obtain ⟨h1, h2, h3, h4, h5⟩ :=
    missing_visit_date_dropped recNoVisit rfl [recKnown] true 0 30 .numericCol 30
  exact ⟨rfl, h1, h2, h3, h4, h5⟩

/-- Counterexample to C4 as stated: in `refresh_pipeline.py` there is no
`dropna`, so a record whose visit date failed to parse still produces (and
is counted in) a department-aggregate row. -/
theorem refresh_dept_counts_missing_visit_date :
    recNoVisit.visit_date = none ∧
    refreshDept 30 [recNoVisit] = [("A", 100)] := by
  refine ⟨rfl, ?_⟩
  have hkeys : groupKeys deptKey [recNoVisit] = ["A"] := by decide
  have hpct : pctOf .numericCol 30 (groupOf deptKey [recNoVisit] "A") = 100 := by
    have h1 : (groupOf deptKey [recNoVisit] "A").countP
        (is_compliant .numericCol 30) = 1 := by decide
    have h2 : (groupOf deptKey [recNoVisit] "A").length = 1 := by decide
    rw [pctOf, h1, h2]
    norm_num
  rw [refreshDept, groupPct, hkeys]
  simp [hpct]

/-- C2 (code evaluation at the failing input): the fourth slide receives
the *full* doctor table (app.py line 335 passes
`doctor[["Doctor","License Expiry","Risk"]]`, not `risky_only`), so with a
single doctor whose risk is `"OK"` — no doctor Expired or Expiring Soon —
the slide lists that doctor instead of stating that no risks were
detected. -/
theorem risk_slide_lists_ok_doctor :
    (appDoctorTable true 0 30 .numericCol 30 [recOKDoctor]).all
        (fun row => decide (row.risk = "OK")) = true ∧
    riskyOnly (appDoctorTable true 0 30 .numericCol 30 [recOKDoctor]) = [] ∧
    riskSlideLines (slideInput (appDoctorTable true 0 30 .numericCol 30 [recOKDoctor])) =
      ["Dr A — License Expires: 34560000 — Status: OK"] ∧
    riskSlideLines (slideInput (appDoctorTable true 0 30 .numericCol 30 [recOKDoctor])) ≠
      ["No licensing risks detected."] := by
  refine ⟨by decide, by decide, by decide, by decide⟩

/-- C5: with no license-expiry column selected, the dashboard doctor
table completes with `Risk = "Unknown"`, `License Expiry` and
`Days to Expiry` missing for every doctor; but the final batch-pipeline
column selection (refresh_pipeline.py line 54) names the two license
columns unconditionally and raises a `KeyError` when the source has no
`License Expiry` column (they were never created). -/
theorem no_license_column_unknown_risk :
    (∀ (today alert : Int) (mode : WaitingMode) (target : ℚ) (rs : List Record),
      ∀ row ∈ appDoctorTable false today alert mode target rs,
        row.risk = "Unknown" ∧ row.expiry = none ∧ row.days = none) ∧
    refreshDoctorCsvColumns false = Except.error "KeyError" ∧
    refreshDoctorCsvColumns true =
      Except.ok ["Doctor", "Visits", "Compliance %", "License Expiry",
        "Days to Expiry"] := by
  refine ⟨?_, rfl, rfl⟩
  intro today alert mode target rs row hrow
  simp only [appDoctorTable, List.mem_map] at hrow
  obtain ⟨k, _, rfl⟩ := hrow
  exact ⟨rfl, rfl, rfl⟩

/-- Witness for C5 at a concrete dataset: the single doctor row carries
`Unknown` risk and missing license fields. -/
theorem no_license_column_unknown_risk_witness :
    rowUnknown ∈ appDoctorTable false 0 30 .numericCol 30 [recKnown] ∧
    rowUnknown.risk = "Unknown" ∧ rowUnknown.expiry = none ∧
    rowUnknown.days = none := by
  have hmem : rowUnknown ∈ appDoctorTable false 0 30 .numericCol 30 [recKnown] :=
    List.mem_singleton.mpr rfl
  exact ⟨hmem,
    no_license_column_unknown_risk.1 0 30 .numericCol 30 [recKnown] rowUnknown hmem⟩

/-- C10: in time-difference mode a record seen before its arrival time
gets a negative `waiting_minutes`, is classified compliant for every
valid target (1–600 minutes), and therefore never decreases — it can only
raise — the compliance percentage of any group it belongs to. -/
theorem negative_wait_compliant_raises_pct {κ : Type} [DecidableEq κ]
    (r : Record) (st sn : Int) (hst : r.start_time = some st)
    (hsn : r.seen_time = some sn) (hlt : sn < st) (target : ℚ)
    (ht1 : 1 ≤ target) (_ht2 : target ≤ 600) :
    (∃ w, waiting_minutes .timeDiff r = some w ∧ w < 0) ∧
    is_compliant .timeDiff target r = true ∧
    ∀ (key : Record → Option κ) (k : κ), key r = some k →
      ∀ rs : List Record,
        pctOf .timeDiff target (groupOf key rs k) ≤
          pctOf .timeDiff target (groupOf key (r :: rs) k) := by
  have hw : waiting_minutes .timeDiff r = some (((sn - st : Int) : ℚ) / 60) := by
    rw [waiting_minutes, hsn, hst]
  have hwneg : (((sn - st : Int) : ℚ) / 60) < 0 := by
    apply div_neg_of_neg_of_pos
    · exact_mod_cast sub_neg.mpr hlt
    · norm_num
  have hcomp : is_compliant .timeDiff target r = true := by
    rw [is_compliant, hw]
    simp only [decide_eq_true_eq]
    exact le_of_lt (lt_of_lt_of_le hwneg (by linarith))
  refine ⟨⟨_, hw, hwneg⟩, hcomp, ?_⟩
  intro key k hk rs
  have hgrp : groupOf key (r :: rs) k = r :: groupOf key rs k := by
    rw [groupOf, groupOf, List.filter_cons]
    simp [hk]
  rw [hgrp, pctOf, pctOf, List.countP_cons, List.length_cons]
  simp only [hcomp, if_pos]
  have hcl : (groupOf key rs k).countP (is_compliant .timeDiff target) ≤
      (groupOf key rs k).length := List.countP_le_length _
  rcases Nat.eq_zero_or_pos (groupOf key rs k).length with h0 | h0
  · have hc0 : (groupOf key rs k).countP (is_compliant .timeDiff target) = 0 := by
      omega
    rw [h0, hc0]
    norm_num
  · have hl0 : (0:ℚ) < ((groupOf key rs k).length : ℚ) := by exact_mod_cast h0
    have hl1 : (0:ℚ) < (((groupOf key rs k).length + 1 : ℕ) : ℚ) := by positivity
    rw [div_le_div_iff₀ hl0 hl1]
    have hclq : ((groupOf key rs k).countP (is_compliant .timeDiff target) : ℚ) ≤
        ((groupOf key rs k).length : ℚ) := by exact_mod_cast hcl
    push_cast
    nlinarith [hclq]

/-- Witness for C10 at a concrete record seen 60 seconds before its
arrival time, against an initially empty department group. -/
theorem negative_wait_compliant_raises_pct_witness :
    recNegWait.start_time = some 60 ∧ recNegWait.seen_time = some 0 ∧
    is_compliant .timeDiff 30 recNegWait = true ∧
    pctOf .timeDiff 30 (groupOf deptKey [] "A") ≤
      pctOf .timeDiff 30 (groupOf deptKey [recNegWait] "A") := by
  obtain ⟨-, hcomp, hmono⟩ :=
    negative_wait_compliant_raises_pct (κ := String) recNegWait 60 0 rfl rfl
      (by norm_num) 30 (by norm_num) (by norm_num)
  exact ⟨rfl, rfl, hcomp, hmono deptKey "A" rfl []⟩
